import Mathlib

/-!
Shallow embedding of the randcast node core (BLS-TSS-Network) for the
randomness pipeline: listeners, the randomness signing handler, the
signature-result cache, the dynamic-scheduler wait loop, context chain
registration and the committer RPC client.

Machine integers are modelled as `Nat` with explicit `% 2 ^ 32` where the
source casts to `u32`; fallible Rust code returning `NodeResult<T>` is
modelled as `Except NodeError T`.
-/

namespace Randcast

/-- Error type standing for the source's `NodeError`; only the variants the
embedded code distinguishes are named, the rest carry a numeric code. -/
inductive NodeError where
  | repeatedChainId
  | rpcError (code : Nat)
  | cacheError (code : Nat)
deriving DecidableEq

/-- The source's `RandomnessTask` record (dal/types). Addresses and byte
strings are modelled as `String`. -/
structure RandomnessTask where
  index : Nat
  message : String
  group_index : Nat
  assignment_block_height : Nat
deriving DecidableEq

/-- Modelled from the spec: the BLS-tasks cache behind `BLSTasksFetcher` /
`BLSTasksUpdater` (its implementation is not under src/). The spec describes
it as a set of known tasks with membership test on `task.index`. -/
structure TaskCache where
  tasks : List RandomnessTask
deriving DecidableEq

/-- Modelled from the spec: membership test of a task index in the task
cache, performed under a read lock; always succeeds on the in-memory cache. -/
def TaskCache.contains (c : TaskCache) (idx : Nat) : Except NodeError Bool :=
  Except.ok (c.tasks.any (fun t => t.index = idx))

/-- Modelled from the spec: adding a task to the task cache under a write
lock; always succeeds on the in-memory cache. -/
def TaskCache.add (c : TaskCache) (t : RandomnessTask) : Except NodeError TaskCache :=
  Except.ok ⟨c.tasks ++ [t]⟩

/-- Payload of the `NewRandomnessTask` event published by the listener. -/
structure NewRandomnessTaskEvent where
  chain_id : Nat
  task : RandomnessTask
deriving DecidableEq

/-- One execution of the retried closure in
`MockNewRandomnessTaskListener::start` (listener/new_randomness_task.rs,
lines 72-92): given the reply of `emit_signature_task`, an `Err` reply is
discarded by the `if let Ok` pattern; on an `Ok` task whose index is not in
the cache the task is added and a `NewRandomnessTask` event is published.
Returns the updated cache, the published events, and the closure's result. -/
def newTaskIterationBody (chain_id : Nat) (cache : TaskCache)
    (task_reply : Except NodeError RandomnessTask) :
    TaskCache × List NewRandomnessTaskEvent × Except NodeError Unit :=
  match task_reply with
  | Except.error _ => (cache, [], Except.ok ())
  | Except.ok t =>
    match cache.contains t.index with
    | Except.ok false =>
      match cache.add t with
      | Except.ok cache1 => (cache1, [⟨chain_id, t⟩], Except.ok ())
      | Except.error e => (cache, [], Except.error e)
    | _ => (cache, [], Except.ok ())

/-- Outcome of one listener iteration wrapped in `RetryIf::spawn`:
total number of attempts of the closure, final cache, all events published
across attempts, and the final result. -/
structure IterOutcome where
  attempts : Nat
  cache : TaskCache
  published : List NewRandomnessTaskEvent
  result : Except NodeError Unit

/-- The wrapper `RetryIf::spawn(retry_strategy, closure, retry_predicate)`
around `newTaskIterationBody` (listener/new_randomness_task.rs, lines
70-101): the strategy is the list of delays still available; the closure is
retried after the next delay only when it returns `Err`. `replies k` is the
reply of `emit_signature_task` on attempt `k`. -/
def newTaskIterRetry (delays : List Nat) (chain_id : Nat) (cache : TaskCache)
    (replies : Nat → Except NodeError RandomnessTask) (k : Nat) : IterOutcome :=
  match newTaskIterationBody chain_id cache (replies k) with
  | (cache1, pubs, Except.ok ()) => ⟨1, cache1, pubs, Except.ok ()⟩
  | (cache1, pubs, Except.error e) =>
    match delays with
    | [] => ⟨1, cache1, pubs, Except.error e⟩
    | _ :: rest =>
      let r := newTaskIterRetry rest chain_id cache1 replies (k + 1)
      ⟨r.attempts + 1, r.cache, pubs ++ r.published, r.result⟩

/-- The unconditional sleep at the end of each loop iteration of
`MockNewRandomnessTaskListener::start` (line 103), in milliseconds. -/
def listenerLoopSleepMillis : Nat := 2000

/-- The retry interval of the listener's `FixedInterval::from_millis(2000)`
strategy (line 67), in milliseconds. -/
def listenerRetryIntervalMillis : Nat := 2000

/-- Modelled from the spec: one entry of the signature-result cache
(dal/cache.rs is not under src/). Keyed externally by the task index; holds
group index, message, threshold, the committed flag and the partial
signatures collected so far, as an association list member address to
partial signature. -/
structure RandomnessResultCache where
  group_index : Nat
  randomness_task_index : Nat
  message : String
  threshold : Nat
  committed : Bool
  partial_signatures : List (String × List Nat)
deriving DecidableEq

/-- Modelled from the spec: `InMemorySignatureResultCache` keyed by task
index (dal/cache.rs is not under src/). -/
structure InMemorySignatureResultCache where
  signature_results : List (Nat × RandomnessResultCache)
deriving DecidableEq

/-- Entry currently stored for a task index, if any. -/
def InMemorySignatureResultCache.lookupEntry (c : InMemorySignatureResultCache)
    (idx : Nat) : Option RandomnessResultCache :=
  (c.signature_results.find? (fun p => p.1 = idx)).map Prod.snd

/-- Modelled from the spec: `SignatureResultCacheFetcher::contains`. -/
def InMemorySignatureResultCache.contains (c : InMemorySignatureResultCache)
    (idx : Nat) : Bool :=
  (c.lookupEntry idx).isSome

/-- Modelled from the spec: `SignatureResultCacheUpdater::add` creates a
fresh entry for the task index with the given group index, message and
threshold, no partials and `committed = false`. -/
def InMemorySignatureResultCache.add (c : InMemorySignatureResultCache)
    (group_index idx : Nat) (message : String) (threshold : Nat) :
    Except NodeError InMemorySignatureResultCache :=
  if c.contains idx then Except.error (NodeError.cacheError 0)
  else Except.ok ⟨c.signature_results ++ [(idx, ⟨group_index, idx, message, threshold, false, []⟩)]⟩

/-- Modelled from the spec:
`SignatureResultCacheUpdater::add_partial_signature` records a partial
signature under a member address into the entry of the task index;
errors when the entry is absent, and is idempotent by member address
(a duplicate address leaves the entry unchanged). -/
def InMemorySignatureResultCache.add_partial_signature
    (c : InMemorySignatureResultCache) (idx : Nat) (addr : String)
    (sig : List Nat) : Except NodeError InMemorySignatureResultCache :=
  match c.lookupEntry idx with
  | none => Except.error (NodeError.cacheError 1)
  | some _ => Except.ok ⟨c.signature_results.map (fun p =>
      if p.1 = idx then
        (p.1,
          if p.2.partial_signatures.any (fun q => q.1 = addr) then p.2
          else { p.2 with partial_signatures := p.2.partial_signatures ++ [(addr, sig)] })
      else p)⟩

/-- Modelled from the spec: the ready entries returned by
`get_ready_to_commit_signatures` — those whose partial count reached the
threshold and whose committed flag is still false. -/
def InMemorySignatureResultCache.get_ready_to_commit_signatures
    (c : InMemorySignatureResultCache) : List RandomnessResultCache :=
  (c.signature_results.filter (fun p =>
    decide (p.2.threshold ≤ p.2.partial_signatures.length) && !p.2.committed)).map Prod.snd

/-- Read-only view of the group cache as the listeners and handlers consume
it through `GroupInfoFetcher`: each fallible read is the `NodeResult` the
cache returns for it. -/
structure GroupView where
  secret_share : Except NodeError Nat
  threshold : Except NodeError Nat
  group_index : Except NodeError Nat
  is_committer : String → Except NodeError Bool

/-- Payload of the `ReadyToFulfillRandomnessTask` event published by the
aggregation listener. -/
structure ReadyToFulfillRandomnessTaskEvent where
  chain_id : Nat
  tasks : List RandomnessResultCache
deriving DecidableEq

/-- One iteration of the loop of
`RandomnessSignatureAggregationListener::start`
(listener/randomness_signature_aggregation.rs, lines 61-81): read
`is_committer` from the group cache; only on `Ok(true)` fetch the ready
signatures from the signature cache and publish a
`ReadyToFulfillRandomnessTask` event when they are non-empty. Returns the
events published by the iteration. -/
def aggregationIteration (chain_id : Nat) (id_address : String) (gc : GroupView)
    (cache : InMemorySignatureResultCache) : List ReadyToFulfillRandomnessTaskEvent :=
  match gc.is_committer id_address with
  | Except.ok true =>
    let ready := cache.get_ready_to_commit_signatures
    if ready.isEmpty then [] else [⟨chain_id, ready⟩]
  | _ => []

/-- Outcome of a `RetryIf::spawn` run: number of attempts actually made,
the sleeps performed between consecutive attempts, and the final result. -/
structure RetryOutcome (α : Type) where
  attempts : Nat
  sleeps : List Nat
  result : Except NodeError α

/-- Semantics of tokio-retry's `RetryIf::spawn(strategy, action, cond)` with
a condition that always allows the retry (as in the source, where the
condition only logs): the strategy is the list of remaining delays; the
action is run once, and on `Err` the next delay is slept and the action
retried, until either it succeeds or the strategy is exhausted. `act k` is
the result of attempt `k`. -/
def retryIf {α : Type} : List Nat → (Nat → Except NodeError α) → Nat → RetryOutcome α
  | delays, act, k =>
    match act k with
    | Except.ok a => ⟨1, [], Except.ok a⟩
    | Except.error e =>
      match delays with
      | [] => ⟨1, [], Except.error e⟩
      | d :: rest =>
        let r := retryIf rest act (k + 1)
        ⟨r.attempts + 1, d :: r.sleeps, r.result⟩

/-- The retry strategy of the randomness signing handler's committer loop,
`FixedInterval::from_millis(2000).take(3)`
(subscriber/ready_to_handle_randomness_task.rs, line 120): three retry
delays of 2000 ms each, available after the initial attempt. -/
def handlerRetryStrategy : List Nat := List.replicate 3 2000

/-- Record of one `commit_partial_signature` retry run performed by the
handler for one committer and one task. -/
structure SendRecord where
  committer : String
  task_index : Nat
  num_attempts : Nat
  sleeps : List Nat
deriving DecidableEq

/-- The per-task cache-and-sign part of `MockRandomnessHandler::handle`
(subscriber/ready_to_handle_randomness_task.rs, lines 89-117): compute the
partial signature from the secret share and the task message, read the
threshold and the group index, and when the local node is a committer make
sure a cache entry exists for the task index (creating it with the current
group index, message and threshold when absent) and record the own partial
signature under the own id address. `psign share message` is
`MockBLSCore.partial_sign`. -/
def handleTask (psign : Nat → String → Except NodeError (List Nat))
    (gc : GroupView) (id_address : String)
    (cache : InMemorySignatureResultCache) (task : RandomnessTask) :
    Except NodeError (InMemorySignatureResultCache × List Nat) := do
  let share ← gc.secret_share
  let partial_signature ← psign share task.message
  let thr ← gc.threshold
  let current_group_index ← gc.group_index
  let isc ← gc.is_committer id_address
  if isc then do
    let cache1 ←
      if cache.contains task.index then pure cache
      else cache.add current_group_index task.index task.message thr
    let cache2 ← cache1.add_partial_signature task.index id_address partial_signature
    pure (cache2, partial_signature)
  else
    pure (cache, partial_signature)

/-- The committer loop of `MockRandomnessHandler::handle` for one task
(lines 119-148): for each committer client, run `commit_partial_signature`
under the handler retry strategy; a final failure is only logged.
`commit cm idx k` is the result of attempt `k` of the call to committer
`cm` for task index `idx`. -/
def sendRecordsForTask (commit : String → Nat → Nat → Except NodeError Bool)
    (committers : List String) (task : RandomnessTask) : List SendRecord :=
  committers.map (fun cm =>
    let r := retryIf handlerRetryStrategy (fun k => commit cm task.index k) 0
    ⟨cm, task.index, r.attempts, r.sleeps⟩)

/-- The full `MockRandomnessHandler::handle` (lines 85-152) over its list of tasks:
for each task in order, run the cache-and-sign part and then the committer
loop; commit failures never propagate, so the handler's result depends only
on the cache-and-sign part. Returns the final cache and the trace of
committer sends. -/
def handle (psign : Nat → String → Except NodeError (List Nat))
    (gc : GroupView) (id_address : String) (committers : List String)
    (commit : String → Nat → Nat → Except NodeError Bool)
    (cache : InMemorySignatureResultCache) :
    List RandomnessTask → Except NodeError (InMemorySignatureResultCache × List SendRecord)
  | [] => Except.ok (cache, [])
  | task :: rest => do
    let (cache1, _sig) ← handleTask psign gc id_address cache task
    let recs := sendRecordsForTask commit committers task
    let (cache2, recs') ← handle psign gc id_address committers commit cache1 rest
    pure (cache2, recs ++ recs')

/-- The closed set of event topics (event/types.rs is not under src/; the
set is taken from the spec's topic list, each randomness topic carrying its
chain id). -/
inductive Topic where
  | NewBlock (chain_id : Nat)
  | NewRandomnessTask (chain_id : Nat)
  | ReadyToHandleRandomnessTask (chain_id : Nat)
  | ReadyToFulfillRandomnessTask (chain_id : Nat)
  | RunDkg
  | DkgSuccess
  | DkgPostProcess
  | ReadyToHandleGroupRelayTask
  | ReadyToHandleGroupRelayConfirmationTask
  | ReadyToFulfillGroupRelayTask
  | ReadyToFulfillGroupRelayConfirmationTask
deriving DecidableEq

/-- The kinds of grouping events, one per grouping topic. -/
inductive GroupingEventKind where
  | runDkg
  | dkgSuccess
  | dkgPostProcess
  | readyToHandleGroupRelayTask
  | readyToHandleGroupRelayConfirmationTask
  | readyToFulfillGroupRelayTask
  | readyToFulfillGroupRelayConfirmationTask
deriving DecidableEq

/-- The topic of each grouping event kind. -/
def GroupingEventKind.topic : GroupingEventKind → Topic
  | GroupingEventKind.runDkg => Topic.RunDkg
  | GroupingEventKind.dkgSuccess => Topic.DkgSuccess
  | GroupingEventKind.dkgPostProcess => Topic.DkgPostProcess
  | GroupingEventKind.readyToHandleGroupRelayTask => Topic.ReadyToHandleGroupRelayTask
  | GroupingEventKind.readyToHandleGroupRelayConfirmationTask =>
      Topic.ReadyToHandleGroupRelayConfirmationTask
  | GroupingEventKind.readyToFulfillGroupRelayTask => Topic.ReadyToFulfillGroupRelayTask
  | GroupingEventKind.readyToFulfillGroupRelayConfirmationTask =>
      Topic.ReadyToFulfillGroupRelayConfirmationTask

/-- Tagged sum of the event payloads; each variant is one concrete
implementor of the `Event` trait. The grouping events are collapsed into
one variant carrying their kind, which is all the claims need of them. -/
inductive EventV where
  | newBlock (chain_id block_height : Nat)
  | newRandomnessTask (chain_id : Nat) (task : RandomnessTask)
  | readyToHandleRandomnessTask (chain_id : Nat) (tasks : List RandomnessTask)
  | readyToFulfillRandomnessTask (chain_id : Nat) (tasks : List RandomnessResultCache)
  | groupingEvent (k : GroupingEventKind)
deriving DecidableEq

/-- The `Event::topic` implementations: `NewBlock` from
event/new_block.rs (lines 18-22); the others modelled from the spec (their
event files are not under src/), each event mapping to the topic of the
same name with its chain id. -/
def EventV.topic : EventV → Topic
  | EventV.newBlock cid _ => Topic.NewBlock cid
  | EventV.newRandomnessTask cid _ => Topic.NewRandomnessTask cid
  | EventV.readyToHandleRandomnessTask cid _ => Topic.ReadyToHandleRandomnessTask cid
  | EventV.readyToFulfillRandomnessTask cid _ => Topic.ReadyToFulfillRandomnessTask cid
  | EventV.groupingEvent k => k.topic

/-- The topic under which `ReadyToHandleRandomnessTaskSubscriber::subscribe`
registers the subscriber
(subscriber/ready_to_handle_randomness_task.rs, lines 194-203): exactly
`Topic::ReadyToHandleRandomnessTask(self.chain_id)` and no other. -/
def subscriberRegistrationTopic (chain_id : Nat) : Topic :=
  Topic.ReadyToHandleRandomnessTask chain_id

/-- The unchecked pointer cast of
`ReadyToHandleRandomnessTaskSubscriber::notify` (lines 161-166), modelled
as the extraction that succeeds exactly when the payload is the concrete
`ReadyToHandleRandomnessTask` struct the cast assumes. -/
def subscriberDowncast : EventV → Option (Nat × List RandomnessTask)
  | EventV.readyToHandleRandomnessTask cid tasks => some (cid, tasks)
  | _ => none

/-- One entry of the dynamic scheduler's task queue: the identity of its
completion channel and whether a watchdog handle is attached. -/
structure DynTask where
  id : Nat
  hasWatchdog : Bool
deriving DecidableEq

/-- Observable steps of the `ContextHandle::wait_task` loop. -/
inductive WaitAction where
  | awaitTask (id : Nat)
  | abortWatchdog (id : Nat)
  | sleep (ms : Nat)
deriving DecidableEq

/-- The inner while-loop of `ContextHandle::wait_task`
(context/types.rs, lines 165-173) draining a queue snapshot: pop one entry
at a time, await its completion channel, abort the watchdog when present.
The queue order is modelled from the spec, which describes the dynamic
scheduler's `dynamic_tasks` as a FIFO queue (the scheduler itself is not
under src/): `pop` removes the entry added earliest. -/
def drainActions : List DynTask → List WaitAction
  | [] => []
  | t :: rest =>
    (WaitAction.awaitTask t.id ::
      (if t.hasWatchdog then [WaitAction.abortWatchdog t.id] else []))
      ++ drainActions rest

/-- Result of one pass of the outer loop of `ContextHandle::wait_task`
(lines 163-177): the actions performed, the queue left behind, and whether
the loop continues (it always does; the source loop has no exit). -/
structure WaitPass where
  actions : List WaitAction
  next_queue : List DynTask
  continues : Bool
deriving DecidableEq

/-- One pass of the outer loop of `ContextHandle::wait_task`: drain the
queue entry by entry, then sleep 1000 ms and go round again. -/
def waitLoopPass (q : List DynTask) : WaitPass :=
  ⟨drainActions q ++ [WaitAction.sleep 1000], [], true⟩

/-- The completion-channel identities awaited by a list of wait actions, in
order. -/
def awaitedIds : List WaitAction → List Nat
  | [] => []
  | WaitAction.awaitTask i :: rest => i :: awaitedIds rest
  | _ :: rest => awaitedIds rest

/-- An adapter chain as `GeneralContext` stores it; only its id is relevant
to registration, the payload stands for the rest of the chain state. -/
structure AdapterChain where
  id : Nat
  payload : Nat
deriving DecidableEq

/-- The adapter-chain map of `GeneralContext` (context/types.rs, line 48),
a map chain id to chain, modelled as an association list. -/
structure GeneralContext where
  adapter_chains : List (Nat × AdapterChain)
deriving DecidableEq

/-- The `HashMap::contains_key` test on the adapter-chain map. -/
def GeneralContext.contains_chain_key (ctx : GeneralContext) (id : Nat) : Bool :=
  ctx.adapter_chains.any (fun p => p.1 = id)

/-- The source's `GeneralContext::add_adapter_chain` (context/types.rs, lines 70-82):
reject with `RepeatedChainId` when a chain with the same id is registered,
otherwise insert the chain under its id. The mutable receiver is modelled
by returning the updated context next to the result. -/
def GeneralContext.add_adapter_chain (ctx : GeneralContext) (chain : AdapterChain) :
    GeneralContext × Except NodeError Unit :=
  if ctx.contains_chain_key chain.id then (ctx, Except.error NodeError.repeatedChainId)
  else (⟨ctx.adapter_chains ++ [(chain.id, chain)]⟩, Except.ok ())

/-- The task type tags of the committer RPC request. -/
inductive TaskType where
  | randomness
  | groupRelay
  | groupRelayConfirmation
deriving DecidableEq

/-- Modelled from the spec: `TaskType::to_i32` (dal/types.rs is not under
src/); the spec fixes 0 = Randomness, 1 = GroupRelay,
2 = GroupRelayConfirmation. -/
def TaskType.to_i32 : TaskType → Int
  | TaskType.randomness => 0
  | TaskType.groupRelay => 1
  | TaskType.groupRelayConfirmation => 2

/-- The wire request of the committer RPC, with the `u32` fields as `Nat`
values below `2 ^ 32`. -/
structure CommitPartialSignatureRequest where
  id_address : String
  chain_id : Nat
  signature_index : Nat
  partial_signature : List Nat
  task_type : Int
  message : List Nat
deriving DecidableEq

/-- The request built by `MockCommitterClient::commit_partial_signature`
(committer/client.rs, lines 66-73): the `usize` arguments `chain_id` and
`signature_index` are cast `as u32`, that is reduced modulo `2 ^ 32`. -/
def commitPartialSignatureRequest (id_address : String) (chain_id : Nat)
    (task_type : TaskType) (message : List Nat) (signature_index : Nat)
    (partial_signature : List Nat) : CommitPartialSignatureRequest :=
  { id_address := id_address
    chain_id := chain_id % 2 ^ 32
    signature_index := signature_index % 2 ^ 32
    partial_signature := partial_signature
    task_type := task_type.to_i32
    message := message }

/-- A retry run makes at most one attempt more than the strategy has
delays. -/
theorem retryIf_attempts_le {α : Type} (delays : List Nat)
    (act : Nat → Except NodeError α) (k : Nat) :
    (retryIf delays act k).attempts ≤ delays.length + 1 := by
  induction delays generalizing k with
  | nil =>
    unfold retryIf
    cases act k <;> simp
  | cons d rest ih =>
    unfold retryIf
    cases act k with
    | ok a => simp
    | error e =>
      have := ih (k + 1)
      simp only [List.length_cons]
      omega

/-- Every sleep performed by a retry run is one of the strategy's
delays. -/
theorem retryIf_sleeps_mem {α : Type} (delays : List Nat)
    (act : Nat → Except NodeError α) (k : Nat) :
    ∀ d ∈ (retryIf delays act k).sleeps, d ∈ delays := by
  induction delays generalizing k with
  | nil =>
    unfold retryIf
    cases act k <;> simp
  | cons d0 rest ih =>
    unfold retryIf
    cases act k with
    | ok a => simp
    | error e =>
      intro d hd
      rcases List.mem_cons.mp hd with h | h
      · exact h ▸ List.mem_cons_self d0 rest
      · exact List.mem_cons_of_mem d0 (ih (k + 1) d h)

/-- Every send record of the handler's committer loop stays within one
initial attempt plus the three retries of the strategy, with every sleep
equal to 2000 ms. -/
theorem sendRecord_bounds (commit : String → Nat → Nat → Except NodeError Bool)
    (committers : List String) (task : RandomnessTask) :
    ∀ r ∈ sendRecordsForTask commit committers task,
      r.num_attempts ≤ 4 ∧ ∀ d ∈ r.sleeps, d = 2000 := by
  intro r hr
  unfold sendRecordsForTask at hr
  rcases List.mem_map.mp hr with ⟨cm, _hcm, rfl⟩
  constructor
  · have h := retryIf_attempts_le handlerRetryStrategy
      (fun k => commit cm task.index k) 0
    simpa [handlerRetryStrategy] using h
  · intro d hd
    have h := retryIf_sleeps_mem handlerRetryStrategy
      (fun k => commit cm task.index k) 0 d hd
    exact List.eq_of_mem_replicate (h : d ∈ List.replicate 3 2000)

/-- A sample randomness task used by concrete witnesses. -/
def sampleTask : RandomnessTask := ⟨7, "deadbeef", 0, 100⟩

/-- A group view whose node is a committer and whose reads all succeed. -/
def gcCommitter : GroupView :=
  ⟨Except.ok 11, Except.ok 1, Except.ok 0, fun _ => Except.ok true⟩

/-- A group view whose node is not a committer and whose reads all
succeed. -/
def gcNonCommitter : GroupView :=
  ⟨Except.ok 11, Except.ok 1, Except.ok 0, fun _ => Except.ok false⟩

/-- A partial-sign function used by concrete witnesses. -/
def psignSample : Nat → String → Except NodeError (List Nat) :=
  fun share _ => Except.ok [share]

/-- A commit function that always succeeds, used by concrete witnesses. -/
def commitOk : String → Nat → Nat → Except NodeError Bool :=
  fun _ _ _ => Except.ok true

/-- A commit function that always fails with a transient RPC error. -/
def commitFail : String → Nat → Nat → Except NodeError Bool :=
  fun _ _ _ => Except.error (NodeError.rpcError 0)

/-- A signature cache holding one ready entry (threshold 1, one partial,
not committed) under task index 7. -/
def cacheReady : InMemorySignatureResultCache :=
  ⟨[(7, ⟨0, 7, "deadbeef", 1, false, [("0xaa", [11])]⟩)]⟩

/-- C1: one iteration of the randomness signature aggregation listener
publishes a `ReadyToFulfillRandomnessTask` event, carrying exactly the
ready entries, precisely when the local `is_committer` check returns
`Ok(true)` and the ready-to-commit signatures are non-empty; in every
other case it publishes nothing. -/
theorem aggregation_listener_emits_iff (chain_id : Nat) (id_address : String)
    (gc : GroupView) (cache : InMemorySignatureResultCache) :
    (gc.is_committer id_address = Except.ok true ∧
        cache.get_ready_to_commit_signatures ≠ [] →
      aggregationIteration chain_id id_address gc cache
        = [⟨chain_id, cache.get_ready_to_commit_signatures⟩]) ∧
    (¬ (gc.is_committer id_address = Except.ok true ∧
        cache.get_ready_to_commit_signatures ≠ []) →
      aggregationIteration chain_id id_address gc cache = []) := by
  unfold aggregationIteration
  constructor
  · rintro ⟨h1, h2⟩
    rw [h1]
    simp [List.isEmpty_iff, h2]
  · intro h
    rcases hic : gc.is_committer id_address with e | b
    · rfl
    · cases b
      · rfl
      · have h2 : cache.get_ready_to_commit_signatures = [] := by
          by_contra hne
          exact h ⟨hic, hne⟩
        simp [List.isEmpty_iff, h2]

/-- Witness for C1 at a concrete committer view and a cache with one ready
entry. -/
theorem aggregation_listener_emits_iff_witness :
    aggregationIteration 0 "0xaa" gcCommitter cacheReady
      = [⟨0, cacheReady.get_ready_to_commit_signatures⟩] :=
  (aggregation_listener_emits_iff 0 "0xaa" gcCommitter cacheReady).1 ⟨rfl, by decide⟩

/-- C2: in the new-randomness-task listener's iteration, a task whose index
is not yet in the task cache is added and published exactly once; a task
whose index is already known leaves the cache unchanged and publishes
nothing. -/
theorem new_task_listener_dedup (chain_id : Nat) (cache : TaskCache)
    (t : RandomnessTask) :
    (cache.contains t.index = Except.ok false →
      newTaskIterationBody chain_id cache (Except.ok t)
        = (⟨cache.tasks ++ [t]⟩, [⟨chain_id, t⟩], Except.ok ())) ∧
    (cache.contains t.index = Except.ok true →
      newTaskIterationBody chain_id cache (Except.ok t)
        = (cache, [], Except.ok ())) := by
  constructor
  · intro h
    simp only [newTaskIterationBody, h, TaskCache.add]
  · intro h
    simp only [newTaskIterationBody, h]

/-- Witness for C2 at an empty cache and the sample task. -/
theorem new_task_listener_dedup_witness :
    newTaskIterationBody 0 ⟨[]⟩ (Except.ok sampleTask)
      = (⟨[sampleTask]⟩, [⟨0, sampleTask⟩], Except.ok ()) :=
  (new_task_listener_dedup 0 ⟨[]⟩ sampleTask).1 rfl

/-- C7 counterexample: with a transient RPC error from
`emit_signature_task`, the retried closure completes with `Ok` after a
single attempt — the `RetryIf` wrapper performs no retry — and the cache
check, add and publish steps of that iteration do not run. -/
theorem new_task_listener_rpc_error_counterexample :
    (newTaskIterRetry [2000, 2000, 2000] 0 ⟨[]⟩
        (fun _ => Except.error (NodeError.rpcError 0)) 0).attempts = 1 ∧
    (newTaskIterRetry [2000, 2000, 2000] 0 ⟨[]⟩
        (fun _ => Except.error (NodeError.rpcError 0)) 0).published = [] ∧
    (newTaskIterRetry [2000, 2000, 2000] 0 ⟨[]⟩
        (fun _ => Except.error (NodeError.rpcError 0)) 0).cache = ⟨[]⟩ :=
  ⟨rfl, rfl, rfl⟩

/-- C7 as amended: an `Err` reply from `emit_signature_task` is discarded
by the `if let Ok` pattern, so the closure returns `Ok` after one attempt
with no event published and the cache untouched, whatever the retry
strategy holds; the next attempt at the iteration comes only from the
loop's unconditional 2000 ms sleep, which equals the configured retry
interval. -/
theorem new_task_listener_rpc_error_behavior (delays : List Nat)
    (chain_id : Nat) (cache : TaskCache) (e : NodeError) (k : Nat) :
    newTaskIterRetry delays chain_id cache (fun _ => Except.error e) k
      = ⟨1, cache, [], Except.ok ()⟩ ∧
    listenerLoopSleepMillis = listenerRetryIntervalMillis := by
  constructor
  · unfold newTaskIterRetry
    rfl
  · rfl

/-- C8: `add_adapter_chain` returns the `RepeatedChainId` error exactly
when a chain with the same id is already registered, leaving the map
unchanged in that case; otherwise it inserts the chain under its id and
returns `Ok(())`. -/
theorem add_adapter_chain_spec (ctx : GeneralContext) (chain : AdapterChain) :
    ((ctx.add_adapter_chain chain).2 = Except.error NodeError.repeatedChainId ↔
      ctx.contains_chain_key chain.id = true) ∧
    (ctx.contains_chain_key chain.id = true →
      (ctx.add_adapter_chain chain).1 = ctx) ∧
    (ctx.contains_chain_key chain.id = false →
      ctx.add_adapter_chain chain
        = (⟨ctx.adapter_chains ++ [(chain.id, chain)]⟩, Except.ok ())) := by
  unfold GeneralContext.add_adapter_chain
  cases h : ctx.contains_chain_key chain.id <;> simp [h]

/-- Witness for C8: registering chain id 1 twice fails with
`RepeatedChainId` and leaves the map unchanged. -/
theorem add_adapter_chain_spec_witness :
    ((GeneralContext.add_adapter_chain ⟨[(1, ⟨1, 0⟩)]⟩ ⟨1, 5⟩).2
        = Except.error NodeError.repeatedChainId) ∧
    (GeneralContext.add_adapter_chain ⟨[(1, ⟨1, 0⟩)]⟩ ⟨1, 5⟩).1 = ⟨[(1, ⟨1, 0⟩)]⟩ :=
  ⟨(add_adapter_chain_spec ⟨[(1, ⟨1, 0⟩)]⟩ ⟨1, 5⟩).1.mpr rfl,
    (add_adapter_chain_spec ⟨[(1, ⟨1, 0⟩)]⟩ ⟨1, 5⟩).2.1 rfl⟩

/-- C10: the committer client's wire request carries `chain_id` and
`signature_index` reduced modulo `2 ^ 32`, so two task indices differing
by a multiple of `2 ^ 32` produce identical requests. -/
theorem commit_request_u32_truncation (addr : String) (cid : Nat)
    (tt : TaskType) (msg psig : List Nat) (i j k : Nat) :
    (commitPartialSignatureRequest addr cid tt msg i psig).chain_id
      = cid % 2 ^ 32 ∧
    (commitPartialSignatureRequest addr cid tt msg i psig).signature_index
      = i % 2 ^ 32 ∧
    (j = i + k * 2 ^ 32 →
      commitPartialSignatureRequest addr cid tt msg j psig
        = commitPartialSignatureRequest addr cid tt msg i psig) := by
  refine ⟨rfl, rfl, ?_⟩
  rintro rfl
  unfold commitPartialSignatureRequest
  simp [Nat.add_mul_mod_self_right]

/-- Unfolding of `handle` on a non-empty task list. -/
theorem handle_cons (psign : Nat → String → Except NodeError (List Nat))
    (gc : GroupView) (id_address : String) (committers : List String)
    (commit : String → Nat → Nat → Except NodeError Bool)
    (cache : InMemorySignatureResultCache) (task : RandomnessTask)
    (rest : List RandomnessTask) :
    handle psign gc id_address committers commit cache (task :: rest)
      = Except.bind (handleTask psign gc id_address cache task) (fun pr =>
          Except.bind (handle psign gc id_address committers commit pr.1 rest)
            (fun pr2 =>
              Except.ok (pr2.1, sendRecordsForTask commit committers task ++ pr2.2))) := by
  simp only [handle]
  cases h : handleTask psign gc id_address cache task with
  | error e => rfl
  | ok pr =>
    cases h2 : handle psign gc id_address committers commit pr.1 rest <;> rfl

/-- Computation rule of monadic bind on a success. -/
theorem except_bind_ok {α β : Type} (a : α) (f : α → Except NodeError β) :
    (Except.ok a : Except NodeError α) >>= f = f a := rfl

/-- Computation rule of monadic bind on an error. -/
theorem except_bind_error {α β : Type} (e : NodeError) (f : α → Except NodeError β) :
    (Except.error e : Except NodeError α) >>= f = Except.error e := rfl

/-- Computation rule of `Except.bind` on a success. -/
theorem excBind_ok {α β : Type} (a : α) (f : α → Except NodeError β) :
    Except.bind (Except.ok a : Except NodeError α) f = f a := rfl

/-- Computation rule of `Except.bind` on an error. -/
theorem excBind_error {α β : Type} (e : NodeError) (f : α → Except NodeError β) :
    Except.bind (Except.error e : Except NodeError α) f = Except.error e := rfl

/-- Computation rule of `Except.map` on an error. -/
theorem except_map_error {α β : Type} (f : α → β) (e : NodeError) :
    Except.map f (Except.error e : Except NodeError α) = Except.error e := rfl

/-- Computation rule of `Except.map` on a success. -/
theorem except_map_ok {α β : Type} (f : α → β) (a : α) :
    Except.map f (Except.ok a : Except NodeError α) = Except.ok (f a) := rfl

/-- Mapping to the cache component erases the send records appended by one
task step. -/
theorem map_fst_bind_ok
    (x : Except NodeError (InMemorySignatureResultCache × List SendRecord))
    (recs : List SendRecord) :
    Except.map Prod.fst
        (Except.bind x (fun pr2 => Except.ok (pr2.1, recs ++ pr2.2)))
      = Except.map Prod.fst x := by
  cases x <;> rfl

/-- Every send record in a successful handler run stays within 4 attempts
with 2000 ms sleeps. -/
theorem handle_trace_bounded (psign : Nat → String → Except NodeError (List Nat))
    (gc : GroupView) (id_address : String) (committers : List String)
    (commit : String → Nat → Nat → Except NodeError Bool) :
    ∀ (tasks : List RandomnessTask) (cache cache' : InMemorySignatureResultCache)
      (recs : List SendRecord),
      handle psign gc id_address committers commit cache tasks
        = Except.ok (cache', recs) →
      ∀ r ∈ recs, r.num_attempts ≤ 4 ∧ ∀ d ∈ r.sleeps, d = 2000 := by
  intro tasks
  induction tasks with
  | nil =>
    intro cache cache' recs h r hr
    simp only [handle, Except.ok.injEq, Prod.mk.injEq] at h
    obtain ⟨_, h2⟩ := h
    subst h2
    cases hr
  | cons task rest ih =>
    intro cache cache' recs h r hr
    rw [handle_cons] at h
    cases hht : handleTask psign gc id_address cache task with
    | error e =>
      rw [hht] at h
      simp [Except.bind] at h
    | ok pr =>
      rw [hht] at h
      simp only [Except.bind] at h
      cases hrest : handle psign gc id_address committers commit pr.1 rest with
      | error e =>
        rw [hrest] at h
        simp at h
      | ok pr2 =>
        rw [hrest] at h
        simp only [Except.ok.injEq, Prod.mk.injEq] at h
        obtain ⟨_, h2⟩ := h
        subst h2
        rcases List.mem_append.mp hr with hm | hm
        · exact sendRecord_bounds commit committers task r hm
        · exact ih pr.1 pr2.1 pr2.2 (by rw [hrest]) r hm

/-- The handler's success and final cache do not depend on the outcomes of
the committer calls: commit failures are only logged. -/
theorem handle_map_fst_commit_independent
    (psign : Nat → String → Except NodeError (List Nat)) (gc : GroupView)
    (id_address : String) (committers : List String)
    (commit commit' : String → Nat → Nat → Except NodeError Bool) :
    ∀ (tasks : List RandomnessTask) (cache : InMemorySignatureResultCache),
      Except.map Prod.fst (handle psign gc id_address committers commit cache tasks)
        = Except.map Prod.fst (handle psign gc id_address committers commit' cache tasks) := by
  intro tasks
  induction tasks with
  | nil => intro cache; rfl
  | cons task rest ih =>
    intro cache
    rw [handle_cons, handle_cons]
    cases hht : handleTask psign gc id_address cache task with
    | error e => rfl
    | ok pr =>
      simp only [Except.bind]
      have hih := ih pr.1
      cases h1 : handle psign gc id_address committers commit pr.1 rest with
      | error e =>
        rw [h1] at hih
        cases h2 : handle psign gc id_address committers commit' pr.1 rest with
        | error e2 =>
          rw [h2, except_map_error, except_map_error] at hih
          cases hih
          rfl
        | ok pr2 =>
          rw [h2, except_map_error, except_map_ok] at hih
          cases hih
      | ok pr2 =>
        rw [h1] at hih
        cases h2 : handle psign gc id_address committers commit' pr.1 rest with
        | error e2 =>
          rw [h2, except_map_ok, except_map_error] at hih
          cases hih
        | ok pr2' =>
          rw [h2, except_map_ok, except_map_ok] at hih
          rw [except_map_ok, except_map_ok]
          exact congrArg Except.ok (Except.ok.inj hih)

/-- C3 counterexample: against a committer whose `commit_partial_signature`
always fails, the handler's retry loop makes 4 attempts for the task —
one initial attempt plus the strategy's 3 retries — refuting "at most 3
times in total". -/
theorem handler_commit_retry_counterexample :
    (sendRecordsForTask commitFail ["c1"] sampleTask).map SendRecord.num_attempts
        = [4] ∧
    ¬ (4 ≤ 3) := ⟨rfl, by decide⟩

/-- C3 as amended: for every task and committer, the handler attempts
`commit_partial_signature` at most 4 times in total (one initial attempt
plus up to 3 retries) with a fixed 2000 ms sleep between consecutive
attempts, and commit failures are only logged: the handler's result and
final cache are the same whatever the commit outcomes. -/
theorem handler_commit_retry_behavior
    (psign : Nat → String → Except NodeError (List Nat)) (gc : GroupView)
    (id_address : String) (committers : List String)
    (commit : String → Nat → Nat → Except NodeError Bool)
    (cache : InMemorySignatureResultCache) (tasks : List RandomnessTask) :
    (∀ cache' recs,
      handle psign gc id_address committers commit cache tasks
          = Except.ok (cache', recs) →
      ∀ r ∈ recs, r.num_attempts ≤ 4 ∧ ∀ d ∈ r.sleeps, d = 2000) ∧
    (∀ commit',
      Except.map Prod.fst (handle psign gc id_address committers commit cache tasks)
        = Except.map Prod.fst (handle psign gc id_address committers commit' cache tasks)) :=
  ⟨fun cache' recs h =>
      handle_trace_bounded psign gc id_address committers commit tasks cache cache' recs h,
    fun commit' =>
      handle_map_fst_commit_independent psign gc id_address committers commit commit' tasks cache⟩

/-- Witness for C3 (amended) at a concrete run against an always-failing
committer. -/
theorem handler_commit_retry_behavior_witness :
    (⟨"c1", 7, 4, [2000, 2000, 2000]⟩ : SendRecord).num_attempts ≤ 4 ∧
      ∀ d ∈ (⟨"c1", 7, 4, [2000, 2000, 2000]⟩ : SendRecord).sleeps, d = 2000 :=
  (handler_commit_retry_behavior psignSample gcCommitter "0xaa" ["c1"] commitFail
      ⟨[]⟩ [sampleTask]).1 cacheReady [⟨"c1", 7, 4, [2000, 2000, 2000]⟩] rfl
    ⟨"c1", 7, 4, [2000, 2000, 2000]⟩ (by decide)

/-- A cache that does not contain an index has no entry for it. -/
theorem find?_eq_none_of_not_contains (c : InMemorySignatureResultCache)
    (idx : Nat) (h : c.contains idx = false) :
    c.signature_results.find? (fun p => p.1 = idx) = none := by
  unfold InMemorySignatureResultCache.contains
    InMemorySignatureResultCache.lookupEntry at h
  cases hf : c.signature_results.find? (fun p => p.1 = idx) with
  | none => rfl
  | some p => rw [hf] at h; simp at h

/-- Appending a fresh entry makes it the one found for its index. -/
theorem lookupEntry_append_fresh (c : InMemorySignatureResultCache) (idx : Nat)
    (e : RandomnessResultCache) (h : c.contains idx = false) :
    InMemorySignatureResultCache.lookupEntry
        ⟨c.signature_results ++ [(idx, e)]⟩ idx = some e := by
  unfold InMemorySignatureResultCache.lookupEntry
  rw [List.find?_append, find?_eq_none_of_not_contains c idx h]
  simp

/-- Adding under an absent index appends the fresh entry. -/
theorem add_of_not_contains (c : InMemorySignatureResultCache)
    (gi idx : Nat) (msg : String) (thr : Nat) (h : c.contains idx = false) :
    c.add gi idx msg thr
      = Except.ok ⟨c.signature_results ++ [(idx, ⟨gi, idx, msg, thr, false, []⟩)]⟩ := by
  unfold InMemorySignatureResultCache.add
  rw [h]
  rfl

/-- The per-entry update applied by `add_partial_signature`. -/
def updEntry (idx : Nat) (addr : String) (sig : List Nat)
    (p : Nat × RandomnessResultCache) : Nat × RandomnessResultCache :=
  if p.1 = idx then
    (p.1,
      if p.2.partial_signatures.any (fun q => q.1 = addr) then p.2
      else { p.2 with partial_signatures := p.2.partial_signatures ++ [(addr, sig)] })
  else p

/-- The update of `add_partial_signature` preserves entry keys. -/
theorem updEntry_fst (idx : Nat) (addr : String) (sig : List Nat)
    (p : Nat × RandomnessResultCache) : (updEntry idx addr sig p).1 = p.1 := by
  unfold updEntry
  by_cases hp : p.1 = idx <;> simp [hp]

/-- Applying `add_partial_signature` to a present entry whose partials do not yet
hold the member address records the partial under that address. -/
theorem add_partial_signature_spec (c : InMemorySignatureResultCache)
    (idx : Nat) (addr : String) (sig : List Nat) (e : RandomnessResultCache)
    (hl : c.lookupEntry idx = some e)
    (hn : e.partial_signatures.any (fun q => q.1 = addr) = false) :
    ∃ c', c.add_partial_signature idx addr sig = Except.ok c' ∧
      c'.lookupEntry idx
        = some { e with partial_signatures := e.partial_signatures ++ [(addr, sig)] } := by
  have hk : c.signature_results.find? (fun p => p.1 = idx) = some (idx, e) := by
    unfold InMemorySignatureResultCache.lookupEntry at hl
    cases hf : c.signature_results.find? (fun p => p.1 = idx) with
    | none => rw [hf] at hl; cases hl
    | some p =>
      rw [hf] at hl
      have hp := List.find?_some hf
      simp only [decide_eq_true_eq] at hp
      have he : p.2 = e := Option.some.inj hl
      rw [← hp, ← he]
  refine ⟨⟨c.signature_results.map (updEntry idx addr sig)⟩, ?_, ?_⟩
  · unfold InMemorySignatureResultCache.add_partial_signature
    rw [hl]
    rfl
  · unfold InMemorySignatureResultCache.lookupEntry
    have hpred : (fun p : Nat × RandomnessResultCache => decide (p.1 = idx)) ∘
        updEntry idx addr sig
          = fun p : Nat × RandomnessResultCache => decide (p.1 = idx) := by
      funext p
      simp [Function.comp, updEntry_fst]
    rw [List.find?_map (updEntry idx addr sig), hpred, hk]
    simp [updEntry, hn]

/-- C4: on a committer node, per task the handler computes the partial
signature from the secret share and the task message; when the cache has
no entry for the task index it creates one with the current group index,
the task's message and the group threshold, and then records its own
partial into that entry under its own id address. -/
theorem handler_committer_records_partial
    (psign : Nat → String → Except NodeError (List Nat)) (gc : GroupView)
    (id_address : String) (cache : InMemorySignatureResultCache)
    (task : RandomnessTask) (share thr gi : Nat) (sig : List Nat)
    (h1 : gc.secret_share = Except.ok share)
    (h2 : psign share task.message = Except.ok sig)
    (h3 : gc.threshold = Except.ok thr)
    (h4 : gc.group_index = Except.ok gi)
    (h5 : gc.is_committer id_address = Except.ok true)
    (h6 : cache.contains task.index = false) :
    ∃ cache2,
      handleTask psign gc id_address cache task = Except.ok (cache2, sig) ∧
      cache2.lookupEntry task.index
        = some ⟨gi, task.index, task.message, thr, false, [(id_address, sig)]⟩ := by
  have hadd := add_of_not_contains cache gi task.index task.message thr h6
  set cacheA : InMemorySignatureResultCache :=
    ⟨cache.signature_results ++
      [(task.index, ⟨gi, task.index, task.message, thr, false, []⟩)]⟩ with hA
  have hlook : cacheA.lookupEntry task.index
      = some ⟨gi, task.index, task.message, thr, false, []⟩ :=
    lookupEntry_append_fresh cache task.index _ h6
  obtain ⟨cache2, hasig, hlook2⟩ :=
    add_partial_signature_spec cacheA task.index id_address sig
      ⟨gi, task.index, task.message, thr, false, []⟩ hlook rfl
  refine ⟨cache2, ?_, by simpa using hlook2⟩
  unfold handleTask
  rw [h1, except_bind_ok, h2, except_bind_ok, h3, except_bind_ok, h4, except_bind_ok,
    h5, except_bind_ok]
  simp only [h6, if_true, Bool.false_eq_true, if_false, ite_true, ite_false,
    eq_self_iff_true]
  rw [hadd, except_bind_ok, hasig, except_bind_ok]
  rfl

/-- Witness for C4 at a concrete committer view, empty cache and the sample
task. -/
theorem handler_committer_records_partial_witness :
    ∃ cache2,
      handleTask psignSample gcCommitter "0xaa" ⟨[]⟩ sampleTask
          = Except.ok (cache2, [11]) ∧
      cache2.lookupEntry sampleTask.index
        = some ⟨0, sampleTask.index, sampleTask.message, 1, false, [("0xaa", [11])]⟩ :=
  handler_committer_records_partial psignSample gcCommitter "0xaa" ⟨[]⟩ sampleTask
    11 1 0 [11] rfl rfl rfl rfl rfl rfl

/-- A non-committer run of the per-task step leaves the cache untouched. -/
theorem handleTask_noncommitter
    (psign : Nat → String → Except NodeError (List Nat)) (gc : GroupView)
    (id_address : String) (cache : InMemorySignatureResultCache)
    (task : RandomnessTask)
    (h : gc.is_committer id_address = Except.ok false) :
    ∀ cache' sig,
      handleTask psign gc id_address cache task = Except.ok (cache', sig) →
      cache' = cache := by
  intro cache' sig hh
  unfold handleTask at hh
  cases h1 : gc.secret_share with
  | error e => rw [h1, except_bind_error] at hh; cases hh
  | ok share =>
    rw [h1, except_bind_ok] at hh
    cases h2 : psign share task.message with
    | error e => rw [h2, except_bind_error] at hh; cases hh
    | ok sg =>
      rw [h2, except_bind_ok] at hh
      cases h3 : gc.threshold with
      | error e => rw [h3, except_bind_error] at hh; cases hh
      | ok thr =>
        rw [h3, except_bind_ok] at hh
        cases h4 : gc.group_index with
        | error e => rw [h4, except_bind_error] at hh; cases hh
        | ok gi =>
          rw [h4, except_bind_ok, h, except_bind_ok] at hh
          simp only [Bool.false_eq_true, if_false, ite_false] at hh
          cases hh
          rfl

/-- C9: on a node whose `is_committer` check returns `Ok(false)`, a
successful handler run leaves the randomness signature cache completely
unchanged, and performs exactly one committer send per (committer, task)
pair. -/
theorem handler_noncommitter_frame
    (psign : Nat → String → Except NodeError (List Nat)) (gc : GroupView)
    (id_address : String) (committers : List String)
    (commit : String → Nat → Nat → Except NodeError Bool)
    (h : gc.is_committer id_address = Except.ok false) :
    ∀ (tasks : List RandomnessTask) (cache cache' : InMemorySignatureResultCache)
      (recs : List SendRecord),
      handle psign gc id_address committers commit cache tasks
          = Except.ok (cache', recs) →
      cache' = cache ∧ recs.length = committers.length * tasks.length := by
  intro tasks
  induction tasks with
  | nil =>
    intro cache cache' recs hh
    simp only [handle, Except.ok.injEq, Prod.mk.injEq] at hh
    obtain ⟨h1, h2⟩ := hh
    exact ⟨h1.symm, by simp [← h2]⟩
  | cons task rest ih =>
    intro cache cache' recs hh
    rw [handle_cons] at hh
    cases hht : handleTask psign gc id_address cache task with
    | error e => rw [hht, excBind_error] at hh; cases hh
    | ok pr =>
      rw [hht, excBind_ok] at hh
      cases hrest : handle psign gc id_address committers commit pr.1 rest with
      | error e => rw [hrest, excBind_error] at hh; cases hh
      | ok pr2 =>
        rw [hrest, excBind_ok] at hh
        simp only [Except.ok.injEq, Prod.mk.injEq] at hh
        obtain ⟨h1, h2⟩ := hh
        have htask := handleTask_noncommitter psign gc id_address cache task h
          pr.1 pr.2 (by rw [hht])
        obtain ⟨hc, hlen⟩ := ih pr.1 pr2.1 pr2.2 (by rw [hrest])
        have hsend : (sendRecordsForTask commit committers task).length
            = committers.length := by
          simp [sendRecordsForTask]
        constructor
        · rw [← h1, hc, htask]
        · rw [← h2, List.length_append, hsend, hlen, List.length_cons]
          ring

/-- Witness for C9 at a concrete non-committer view, empty cache and the
sample task. -/
theorem handler_noncommitter_frame_witness :
    (⟨[]⟩ : InMemorySignatureResultCache) = ⟨[]⟩ ∧
      ([⟨"c1", 7, 1, []⟩] : List SendRecord).length
        = ["c1"].length * [sampleTask].length :=
  handler_noncommitter_frame psignSample gcNonCommitter "0xaa" ["c1"] commitOk rfl
    [sampleTask] ⟨[]⟩ ⟨[]⟩ [⟨"c1", 7, 1, []⟩] rfl

/-- C5: the subscriber registers only under
`Topic::ReadyToHandleRandomnessTask(chain_id)`, and every event whose
topic equals that registration topic is the concrete
`ReadyToHandleRandomnessTask` payload, so the unchecked cast in `notify`
always reads a value of the expected type. -/
theorem subscriber_downcast_sound (chain_id : Nat) (e : EventV)
    (h : e.topic = subscriberRegistrationTopic chain_id) :
    subscriberRegistrationTopic chain_id = Topic.ReadyToHandleRandomnessTask chain_id ∧
    ∃ tasks, e = EventV.readyToHandleRandomnessTask chain_id tasks ∧
      subscriberDowncast e = some (chain_id, tasks) := by
  refine ⟨rfl, ?_⟩
  cases e with
  | newBlock cid bh =>
    simp [EventV.topic, subscriberRegistrationTopic] at h
  | newRandomnessTask cid t =>
    simp [EventV.topic, subscriberRegistrationTopic] at h
  | readyToHandleRandomnessTask cid tasks =>
    simp only [EventV.topic, subscriberRegistrationTopic,
      Topic.ReadyToHandleRandomnessTask.injEq] at h
    subst h
    exact ⟨tasks, rfl, rfl⟩
  | readyToFulfillRandomnessTask cid tasks =>
    simp [EventV.topic, subscriberRegistrationTopic] at h
  | groupingEvent k =>
    cases k <;> simp [EventV.topic, GroupingEventKind.topic,
      subscriberRegistrationTopic] at h

/-- Witness for C5 at a concrete `ReadyToHandleRandomnessTask` event. -/
theorem subscriber_downcast_sound_witness :
    subscriberRegistrationTopic 3 = Topic.ReadyToHandleRandomnessTask 3 ∧
    ∃ tasks,
      EventV.readyToHandleRandomnessTask 3 [sampleTask]
        = EventV.readyToHandleRandomnessTask 3 tasks ∧
      subscriberDowncast (EventV.readyToHandleRandomnessTask 3 [sampleTask])
        = some (3, tasks) :=
  subscriber_downcast_sound 3 (EventV.readyToHandleRandomnessTask 3 [sampleTask]) rfl

/-- Appending action lists splits the awaited identities. -/
theorem awaitedIds_append (l1 l2 : List WaitAction) :
    awaitedIds (l1 ++ l2) = awaitedIds l1 ++ awaitedIds l2 := by
  induction l1 with
  | nil => rfl
  | cons a rest ih =>
    cases a <;> simp [awaitedIds, ih]

/-- The drain awaits exactly the queued completion channels, in queue
order. -/
theorem awaitedIds_drainActions (q : List DynTask) :
    awaitedIds (drainActions q) = q.map DynTask.id := by
  induction q with
  | nil => rfl
  | cons t rest ih =>
    by_cases h : t.hasWatchdog <;>
      simp [drainActions, awaitedIds, awaitedIds_append, h, ih]

/-- Every queued entry carrying a watchdog has its watchdog aborted during
the drain. -/
theorem abortWatchdog_mem_drainActions (q : List DynTask) (t : DynTask)
    (ht : t ∈ q) (hw : t.hasWatchdog = true) :
    WaitAction.abortWatchdog t.id ∈ drainActions q := by
  induction q with
  | nil => cases ht
  | cons s rest ih =>
    rcases List.mem_cons.mp ht with h1 | h2
    · subst h1
      simp [drainActions, hw]
    · simp [drainActions, ih h2]

/-- C6: one pass of the `ContextHandle::wait_task` loop awaits the queued
entries one at a time in FIFO order, aborts the watchdog of every entry
that has one, leaves the queue empty, ends by sleeping 1000 ms, and always
continues into the next pass — the loop never terminates on its own. -/
theorem wait_loop_fifo_drain (q : List DynTask) :
    awaitedIds (waitLoopPass q).actions = q.map DynTask.id ∧
    (∀ t ∈ q, t.hasWatchdog = true →
      WaitAction.abortWatchdog t.id ∈ (waitLoopPass q).actions) ∧
    (waitLoopPass q).next_queue = [] ∧
    (waitLoopPass q).actions.getLast? = some (WaitAction.sleep 1000) ∧
    (waitLoopPass q).continues = true := by
  refine ⟨?_, ?_, rfl, List.getLast?_concat _, rfl⟩
  · simp [waitLoopPass, awaitedIds_append, awaitedIds_drainActions, awaitedIds]
  · intro t ht hw
    simp only [waitLoopPass, List.mem_append]
    exact Or.inl (abortWatchdog_mem_drainActions q t ht hw)

/-- Witness for C6 at a two-entry queue, the first entry carrying a
watchdog. -/
theorem wait_loop_fifo_drain_witness :
    awaitedIds (waitLoopPass [⟨5, true⟩, ⟨6, false⟩]).actions
      = [⟨5, true⟩, ⟨6, false⟩].map DynTask.id ∧
    (∀ t ∈ [(⟨5, true⟩ : DynTask), ⟨6, false⟩], t.hasWatchdog = true →
      WaitAction.abortWatchdog t.id ∈ (waitLoopPass [⟨5, true⟩, ⟨6, false⟩]).actions) ∧
    (waitLoopPass [⟨5, true⟩, ⟨6, false⟩]).next_queue = [] ∧
    (waitLoopPass [⟨5, true⟩, ⟨6, false⟩]).actions.getLast?
      = some (WaitAction.sleep 1000) ∧
    (waitLoopPass [⟨5, true⟩, ⟨6, false⟩]).continues = true :=
  wait_loop_fifo_drain [⟨5, true⟩, ⟨6, false⟩]

/-- Witness for C10: indices 5 and 5 + 2 ^ 32 yield the same request. -/
theorem commit_request_u32_truncation_witness :
    commitPartialSignatureRequest "0xaa" 1 TaskType.randomness [1] (5 + 2 ^ 32) [9]
      = commitPartialSignatureRequest "0xaa" 1 TaskType.randomness [1] 5 [9] :=
  (commit_request_u32_truncation "0xaa" 1 TaskType.randomness [1] [9] 5 (5 + 2 ^ 32) 1).2.2 rfl

end Randcast
